import Mathlib

/-!
Verification of the RAG pipeline core of src/app/main.py.

Python text is modelled as `List Char`; Python slices `text[start:end]`
become `(text.drop start).take (end - start)`.  The embedding endpoint,
the vector store and the generation endpoint are external services; each
call's outcome is passed in explicitly as a value of a behaviour type, and
Python exceptions become `Except` / explicit error fields.  The unbounded
`while` loop of `chunk_text` is embedded with an explicit fuel parameter;
its termination under the documented precondition is proved below.
-/

/-- Ceiling division on naturals: `ceil (a / b)` computed as `(a + b - 1) / b`. -/
def ceil_div (a b : Nat) : Nat := (a + b - 1) / b

/-- Chunking configuration constant `CHUNK_SIZE = 1000` from main.py. -/
def CHUNK_SIZE : Nat := 1000

/-- Chunking configuration constant `CHUNK_OVERLAP = 200` from main.py. -/
def CHUNK_OVERLAP : Nat := 200

/-- Fuel-indexed embedding of the `while` loop of `chunk_text` (main.py lines
53-64).  State is the cursor `start`; each iteration emits
`text[start : start + chunk_size]`, stops if `start + chunk_size` reached the
end of the text, and otherwise advances the cursor to
`start + chunk_size - overlap`.  `none` means the fuel ran out before the
loop finished. -/
def chunk_text_fuel : Nat → List Char → Nat → Nat → Nat → Option (List (List Char))
  | 0, _, _, _, _ => none
  | fuel + 1, text, chunk_size, overlap, start =>
    if start < text.length then
      if text.length ≤ start + chunk_size then
        some [(text.drop start).take chunk_size]
      else
        Option.map
          (fun rest => (text.drop start).take chunk_size :: rest)
          (chunk_text_fuel fuel text chunk_size overlap (start + chunk_size - overlap))
    else
      some []

/-- Embedding of `chunk_text(text, chunk_size, overlap)` from main.py: run the
loop from cursor 0 with fuel `text.length + 1`, which is shown below to be
sufficient whenever `overlap < chunk_size`. -/
def chunk_text (text : List Char) (chunk_size overlap : Nat) : List (List Char) :=
  (chunk_text_fuel (text.length + 1) text chunk_size overlap 0).getD []

/-- The reconstruction described by the spec: concatenate
`chunk[i][0 : size - overlap]` for every chunk but the last, then the full
last chunk. -/
def reconstruct (chunk_size overlap : Nat) : List (List Char) → List Char
  | [] => []
  | [c] => c
  | c :: c2 :: rest => c.take (chunk_size - overlap) ++ reconstruct chunk_size overlap (c2 :: rest)

/-- Vectors returned by the embedding model; Python floats are modelled as
rationals (every value reasoned about here is exact). -/
abbrev Vec := List ℚ

/-- Ollama base URL constant from main.py. -/
def OLLAMA_BASE_URL : String := "http://localhost:11434"

/-- Default embedding model constant from main.py. -/
def EMBEDDING_MODEL : String := "nomic-embed-text"

/-- Chat model constant from main.py. -/
def CHAT_MODEL : String := "tinyllama"

/-- Outcome of one HTTP call to the embedding endpoint as observed inside
`get_embeddings`: a successful JSON body whose `embedding` field is `emb`
(`[]` when the field is missing or empty), a connection failure
(`httpx.ConnectError`), a non-2xx response (`httpx.HTTPStatusError`, with
status code and body), or any other exception raised inside the `try`
block. -/
inductive EndpointBehavior where
  | ok (emb : Vec)
  | connectFail
  | statusFail (code : Nat) (body : String)
  | otherFail (msg : String)
deriving DecidableEq

/-- The exceptions `get_embeddings` lets escape to its caller. -/
inductive EmbedError where
  | connectError
  | httpStatusError (code : Nat) (body : String)
deriving DecidableEq

/-- Embedding of `get_embeddings(text, model)` (main.py lines 67-91).  The
endpoint's behaviour for this request is passed as `b`.  A successful call
whose `embedding` list is empty raises `ValueError`, which is caught by the
same function's `except Exception` handler and turned into the
768-dimensional zero-vector fallback; connection and HTTP-status errors are
re-raised; every other exception also yields the zero-vector fallback. -/
def get_embeddings (text : List Char) (model : String) (b : EndpointBehavior) :
    Except EmbedError Vec :=
  match b with
  | .ok emb =>
    if emb.isEmpty then Except.ok (List.replicate 768 (0 : ℚ)) else Except.ok emb
  | .connectFail => Except.error EmbedError.connectError
  | .statusFail code body => Except.error (EmbedError.httpStatusError code body)
  | .otherFail _ => Except.ok (List.replicate 768 (0 : ℚ))

/-- One record handed to `collection.add` during ingestion. -/
structure StoreRecord where
  id : String
  embedding : Vec
  filename : String
  chunk_index : Nat
  document : List Char
deriving DecidableEq

/-- The ChromaDB collection, abstracted to its list of records. -/
structure Store where
  records : List StoreRecord
deriving DecidableEq

/-- The collection's `count()`. -/
def Store.count (s : Store) : Nat := s.records.length

/-- The per-chunk loop of `ingest_document`: for the chunk at index `i`
build the id `{file_id}_{i}`, fetch its embedding (the endpoint behaviour
for the i-th call is `endpoint i`), and accumulate the parallel
ids/embeddings/metadatas/documents lists; an embedding error raised at any
chunk aborts the whole loop. -/
def build_records (file_id filename : String) (endpoint : Nat → EndpointBehavior) :
    Nat → List (List Char) → Except EmbedError (List StoreRecord)
  | _, [] => Except.ok []
  | i, chunk :: rest =>
    match get_embeddings chunk EMBEDDING_MODEL (endpoint i) with
    | .error e => Except.error e
    | .ok emb =>
      match build_records file_id filename endpoint (i + 1) rest with
      | .error e => Except.error e
      | .ok recs =>
        Except.ok (StoreRecord.mk (file_id ++ "_" ++ toString i) emb filename i chunk :: recs)

/-- Observable outcome of `ingest_document`: the error escaping it (if any)
and the records submitted to `collection.add`. -/
structure IngestResult where
  error : Option EmbedError
  submitted : List StoreRecord
deriving DecidableEq

/-- Embedding of `ingest_document(file_id, text, filename)` (main.py lines
139-168): chunk the text with the default size and overlap, return silently
on zero chunks, embed every chunk sequentially, and only after the whole
loop succeeded hand all records to `collection.add` in a single call.  An
embedding error escapes before anything is submitted. -/
def ingest_document (file_id : String) (text : List Char) (filename : String)
    (endpoint : Nat → EndpointBehavior) : IngestResult :=
  let chunks := chunk_text text CHUNK_SIZE CHUNK_OVERLAP
  if chunks.isEmpty then
    IngestResult.mk none []
  else
    match build_records file_id filename endpoint 0 chunks with
    | .error e => IngestResult.mk (some e) []
    | .ok recs => IngestResult.mk none (if recs.isEmpty then [] else recs)

/-- Embedding of `retrieve_relevant_chunks(query, top_k)` (main.py lines
222-244).  `queryFn` stands for the external `collection.query`, which may
itself raise (`Except.error`); the second component of the result counts
how many times the embedding client was invoked during the call.  Every
exception inside the `try` block is converted to the empty list. -/
def retrieve_relevant_chunks (store : Store)
    (queryFn : Vec → Nat → Except String (List (List Char)))
    (b : EndpointBehavior) (query : List Char) (top_k : Nat) :
    List (List Char) × Nat :=
  if store.count = 0 then ([], 0)
  else
    match get_embeddings query EMBEDDING_MODEL b with
    | .error _ => ([], 1)
    | .ok emb =>
      match queryFn emb top_k with
      | .error _ => ([], 1)
      | .ok docs => (if 0 < docs.length then docs else [], 1)

/-- Embedding of `build_prompt(query, context_chunks, action_type, use_rag)`
(main.py lines 247-307), with every template string transcribed literally
(apostrophes written as the escape `\x27`). -/
def build_prompt (query : String) (context_chunks : List String)
    (action_type : Option String) (use_rag : Bool) : String :=
  if use_rag && !context_chunks.isEmpty then
    let context := String.intercalate "\n\n" context_chunks
    let system_prompt := "You are a helpful AI assistant for engineering students. You help them understand their academic materials, answer questions, and provide insights based on the documents they have uploaded.\n\nUse the following context from their uploaded documents to answer their questions accurately and helpfully. If the context doesn\x27t contain relevant information, you can supplement with your general knowledge."
    let user_prompt :=
      if action_type = some "summarize" then
        "Based on the following context from the uploaded documents, provide a comprehensive summary.\n\nContext:\n" ++ context ++ "\n\nPlease provide a clear, well-structured summary of the key points and main ideas."
      else if action_type = some "suggest_projects" then
        "Based on the following context from the uploaded documents, suggest practical project ideas that would help the student apply and deepen their understanding of these concepts.\n\nContext:\n" ++ context ++ "\n\nProvide creative, actionable project suggestions that relate to the material."
      else if action_type = some "explain" then
        "Based on the following context from the uploaded documents, explain the concepts mentioned in the user\x27s query in a clear and educational way.\n\nContext:\n" ++ context ++ "\n\nUser Query: " ++ query ++ "\n\nProvide a detailed explanation that helps the student understand the concept."
      else
        "Context from uploaded documents:\n" ++ context ++ "\n\nUser Question: " ++ query ++ "\n\nPlease answer the user\x27s question based on the provided context. If the context is insufficient, use your general knowledge to provide a helpful answer."
    system_prompt ++ "\n\n" ++ user_prompt
  else
    let system_prompt := "You are a helpful AI assistant for engineering students. You help them understand concepts, answer questions, and provide insights. Be thorough, accurate, and educational in your responses."
    let user_prompt :=
      if action_type = some "summarize" then
        "The user is asking for a summary. Please provide a helpful response to: " ++ query
      else if action_type = some "suggest_projects" then
        "Suggest practical project ideas related to: " ++ query ++ ". Provide creative, actionable project suggestions."
      else if action_type = some "explain" then
        "Explain the following concept in a clear and educational way: " ++ query ++ ". Provide a detailed explanation that helps the student understand."
      else
        "User Question: " ++ query ++ "\n\nPlease answer the user\x27s question. Be thorough, accurate, and helpful."
    system_prompt ++ "\n\n" ++ user_prompt

/-- One event re-emitted by the generation streamer. -/
inductive StreamEvent where
  | chunk (s : String)
  | done
  | error (msg : String)
deriving DecidableEq

/-- One line of the generation endpoint's newline-delimited stream, as seen
after `json.loads`: an empty (falsy) line, a line whose JSON parse raises
`JSONDecodeError`, or a JSON object carrying the optional `response` string
field and the truth value of `data.get("done", False)`. -/
inductive RawLine where
  | empty
  | malformed
  | obj (response : Option String) (doneFlag : Bool)
deriving DecidableEq

/-- The `async for line in response.aiter_lines()` loop of
`stream_ollama_response`: skip empty lines, skip lines whose JSON parse
fails, emit a `chunk` event for any present `response` field, and on a true
`done` flag emit the terminal `done` event and break out of the loop. -/
def process_lines : List RawLine → List StreamEvent
  | [] => []
  | RawLine.empty :: rest => process_lines rest
  | RawLine.malformed :: rest => process_lines rest
  | RawLine.obj resp doneFlag :: rest =>
    (match resp with
     | some r => [StreamEvent.chunk r]
     | none => []) ++
    (if doneFlag then [StreamEvent.done] else process_lines rest)

/-- Outcome of the streaming HTTP call made by `stream_ollama_response`. -/
inductive GenEndpoint where
  | ok (lines : List RawLine)
  | connectFail
  | statusFail (code : Nat) (body : String)
  | otherFail (msg : String)
deriving DecidableEq

/-- Embedding of `stream_ollama_response(prompt)` (main.py lines 310-343) at
the event level: a successful connection processes the line stream, and each
failure class yields exactly one terminal `error` event. -/
def stream_ollama_response (b : GenEndpoint) : List StreamEvent :=
  match b with
  | .ok lines => process_lines lines
  | .connectFail =>
    [StreamEvent.error ("Cannot connect to Ollama at " ++ OLLAMA_BASE_URL ++ ". Make sure Ollama is running and the model \x27" ++ CHAT_MODEL ++ "\x27 is installed.")]
  | .statusFail code body =>
    [StreamEvent.error ("Ollama API error (" ++ toString code ++ "): " ++ body)]
  | .otherFail msg =>
    [StreamEvent.error ("Error communicating with Ollama: " ++ msg)]

lemma reconstruct_cons (chunk_size overlap : Nat) (c : List Char)
    (l : List (List Char)) (h : l ≠ []) :
    reconstruct chunk_size overlap (c :: l) =
      c.take (chunk_size - overlap) ++ reconstruct chunk_size overlap l := by
  cases l with
  | nil => exact absurd rfl h
  | cons c2 rest => rfl

lemma list_take_all {α : Type} (l : List α) (n : Nat) (h : l.length ≤ n) :
    l.take n = l := by
  induction l generalizing n with
  | nil => simp
  | cons a t ih =>
    cases n with
    | zero => simp at h
    | succ m =>
      simp only [List.length_cons, Nat.succ_le_succ_iff] at h
      simp [List.take, ih m h]

lemma ceil_div_step (d x : Nat) (hd : 0 < d) (hx : 0 < x) :
    ceil_div x d = 1 + ceil_div (x - d) d := by
  unfold ceil_div
  rcases le_or_lt x d with h | h
  · have h0 : x - d = 0 := by omega
    have h1 : x + d - 1 = (x - 1) + d := by omega
    rw [h0, h1, Nat.add_div_right _ hd,
        Nat.div_eq_of_lt (show x - 1 < d by omega),
        Nat.div_eq_of_lt (show 0 + d - 1 < d by omega)]
  · have h1 : x + d - 1 = (x - d + d - 1) + d := by omega
    rw [h1, Nat.add_div_right _ hd]
    omega

lemma chunk_text_fuel_spec (text : List Char) (cs ov : Nat) (hov : ov < cs) :
    ∀ fuel start, text.length - start < fuel →
      ∃ l, chunk_text_fuel fuel text cs ov start = some l
        ∧ reconstruct cs ov l = text.drop start
        ∧ l.length = (if start < text.length
            then 1 + ceil_div (text.length - start - cs) (cs - ov) else 0) := by
  intro fuel
  induction fuel with
  | zero => intro start h; omega
  | succ f ih =>
    intro start h
    by_cases hs : start < text.length
    · by_cases he : text.length ≤ start + cs
      · refine ⟨[(text.drop start).take cs], ?_, ?_, ?_⟩
        · simp [chunk_text_fuel, hs, he]
        · show (text.drop start).take cs = text.drop start
          exact list_take_all _ _ (by simp [List.length_drop]; omega)
        · have hx : text.length - start - cs = 0 := by omega
          simp [hx, hs, ceil_div, Nat.div_eq_of_lt (show cs - ov - 1 < cs - ov by omega)]
      · have harg : start + cs - ov = start + (cs - ov) := by omega
        have hlt : text.length - (start + (cs - ov)) < f := by omega
        obtain ⟨rest, hrec, hrecon, hlen⟩ := ih (start + (cs - ov)) hlt
        have hstart' : start + (cs - ov) < text.length := by omega
        rw [if_pos hstart'] at hlen
        have hrestne : rest ≠ [] := by
          intro hnil
          rw [hnil] at hlen
          simp only [List.length_nil] at hlen
          omega
        refine ⟨(text.drop start).take cs :: rest, ?_, ?_, ?_⟩
        · simp only [chunk_text_fuel, if_pos hs, if_neg he, harg, hrec]
          rfl
        · rw [reconstruct_cons _ _ _ _ hrestne, hrecon]
          have h1 : ((text.drop start).take cs).take (cs - ov) = (text.drop start).take (cs - ov) := by
            rw [List.take_take, Nat.min_eq_left (Nat.sub_le cs ov)]
          have h2 : text.drop (start + (cs - ov)) = (text.drop start).drop (cs - ov) := by
            rw [List.drop_drop]
            try rw [Nat.add_comm]
          rw [h1, h2, List.take_append_drop]
        · have hx : 0 < text.length - start - cs := by omega
          have hxd : text.length - (start + (cs - ov)) - cs = (text.length - start - cs) - (cs - ov) := by
            omega
          rw [if_pos hs, ceil_div_step (cs - ov) (text.length - start - cs) (by omega) hx]
          simp only [List.length_cons, hlen, hxd]
          omega
    · refine ⟨[], ?_, ?_, ?_⟩
      · simp [chunk_text_fuel, hs]
      · rw [List.drop_eq_nil_of_le (by omega)]
        rfl
      · simp [hs]

lemma chunk_text_fuel_irrel (text : List Char) (cs ov : Nat) (hov : ov < cs) :
    ∀ f1 f2 start, text.length - start < f1 → text.length - start < f2 →
      chunk_text_fuel f1 text cs ov start = chunk_text_fuel f2 text cs ov start := by
  intro f1
  induction f1 with
  | zero => intro f2 start h1 h2; omega
  | succ a ih =>
    intro f2 start h1 h2
    cases f2 with
    | zero => omega
    | succ b =>
      by_cases hs : start < text.length
      · by_cases he : text.length ≤ start + cs
        · simp [chunk_text_fuel, hs, he]
        · have harg : start + cs - ov = start + (cs - ov) := by omega
          simp only [chunk_text_fuel, if_pos hs, if_neg he, harg]
          rw [ih b (start + (cs - ov)) (by omega) (by omega)]
      · simp [chunk_text_fuel, hs]

lemma chunk_text_spec (text : List Char) (cs ov : Nat) (hov : ov < cs) :
    reconstruct cs ov (chunk_text text cs ov) = text
    ∧ (chunk_text text cs ov).length =
        (if 0 < text.length then 1 + ceil_div (text.length - cs) (cs - ov) else 0) := by
  obtain ⟨l, hl, hrecon, hlen⟩ :=
    chunk_text_fuel_spec text cs ov hov (text.length + 1) 0 (by omega)
  have hchunk : chunk_text text cs ov = l := by
    unfold chunk_text
    rw [hl]
    rfl
  rw [hchunk]
  constructor
  · simpa using hrecon
  · simpa using hlen


lemma max_one_ceil_div (L S O : Nat) (h : O < S) :
    max 1 (ceil_div (L - O) (S - O)) = 1 + ceil_div (L - S) (S - O) := by
  have hd : 0 < S - O := by omega
  rcases le_or_lt L S with hle | hgt
  · have hLS : L - S = 0 := by omega
    have hz : ceil_div 0 (S - O) = 0 := by
      unfold ceil_div
      exact Nat.div_eq_of_lt (by omega)
    rw [hLS, hz]
    rcases le_or_lt L O with hLO | hOL
    · have hx : L - O = 0 := by omega
      rw [hx, hz]
      omega
    · have hone : ceil_div (L - O) (S - O) = 1 := by
        unfold ceil_div
        rw [show L - O + (S - O) - 1 = (L - O - 1) + (S - O) by omega,
            Nat.add_div_right _ hd, Nat.div_eq_of_lt (by omega)]
      rw [hone]
      omega
  · have hstep := ceil_div_step (S - O) (L - O) hd (by omega)
    rw [show L - O - (S - O) = L - S by omega] at hstep
    rw [hstep, Nat.max_eq_right (Nat.le_add_right 1 _)]

lemma chunk_text_ne_nil (text : List Char) (cs ov : Nat) (hov : ov < cs)
    (htext : text ≠ []) : chunk_text text cs ov ≠ [] := by
  obtain ⟨-, hlen⟩ := chunk_text_spec text cs ov hov
  intro hnil
  have hpos : 0 < text.length := List.length_pos.mpr htext
  rw [hnil, if_pos hpos] at hlen
  simp only [List.length_nil] at hlen
  omega

/-- Claim C2 is refuted at text "a", size 3, overlap 2 (a valid input,
`0 ≤ 2 < 3`): the code emits one chunk, while the spec formula
`ceil(max(L - O, 0) / (S - O))` evaluates to 0. -/
theorem chunk_count_formula_counterexample :
    2 < 3 ∧ 0 < (['a'] : List Char).length ∧
    (chunk_text ['a'] 3 2).length ≠
      ceil_div (max ((['a'] : List Char).length - 2) 0) (3 - 2) := by
  decide

/-- Claim C2 (amended): for 0 ≤ O < S the chunk count is 0 for empty text and
otherwise `max 1 (ceil(max(L - O, 0) / (S - O)))` — the spec's formula is
right whenever L > O, but understates the count by one when 0 < L ≤ O, where
the code still emits a single chunk. -/
theorem chunk_count_amended (text : List Char) (chunk_size overlap : Nat)
    (hov : overlap < chunk_size) :
    (chunk_text text chunk_size overlap).length =
      if text.length = 0 then 0
      else max 1 (ceil_div (max (text.length - overlap) 0) (chunk_size - overlap)) := by
  obtain ⟨-, hlen⟩ := chunk_text_spec text chunk_size overlap hov
  rw [hlen]
  rcases Nat.eq_zero_or_pos text.length with h0 | hpos
  · simp [h0]
  · rw [if_pos hpos, if_neg (by omega), Nat.max_eq_left (Nat.zero_le _),
        max_one_ceil_div text.length chunk_size overlap hov]

theorem chunk_count_amended_witness :
    1 < 2 ∧ (chunk_text (List.replicate 5 'a') 2 1).length =
      (if (List.replicate 5 'a').length = 0 then 0
       else max 1 (ceil_div (max ((List.replicate 5 'a').length - 1) 0) (2 - 1))) :=
  ⟨by decide, chunk_count_amended (List.replicate 5 'a') 2 1 (by decide)⟩

/-- Claim C3: for 0 ≤ O < S, concatenating `chunk[i][0 : S - O]` for every
chunk but the last, followed by the full last chunk, reconstructs the
original text exactly. -/
theorem chunk_reconstruction (text : List Char) (chunk_size overlap : Nat)
    (hov : overlap < chunk_size) :
    reconstruct chunk_size overlap (chunk_text text chunk_size overlap) = text :=
  (chunk_text_spec text chunk_size overlap hov).1

theorem chunk_reconstruction_witness :
    1 < 3 ∧ reconstruct 3 1 (chunk_text ['x','y','z','w','v'] 3 1) = ['x','y','z','w','v'] :=
  ⟨by decide, chunk_reconstruction ['x','y','z','w','v'] 3 1 (by decide)⟩

/-- Claim C6: under the precondition 0 ≤ O < S the chunking loop terminates —
every fuel bound larger than the text length lets the loop finish, with one
fuel-independent result, namely `chunk_text`. -/
theorem chunk_text_terminates (text : List Char) (chunk_size overlap : Nat)
    (hov : overlap < chunk_size) :
    ∀ fuel, text.length < fuel →
      chunk_text_fuel fuel text chunk_size overlap 0 =
        some (chunk_text text chunk_size overlap) := by
  intro fuel hf
  obtain ⟨l, hl, -, -⟩ :=
    chunk_text_fuel_spec text chunk_size overlap hov (text.length + 1) 0 (by omega)
  have hirr := chunk_text_fuel_irrel text chunk_size overlap hov fuel (text.length + 1) 0
    (by omega) (by omega)
  rw [hirr, hl]
  unfold chunk_text
  rw [hl]
  rfl

theorem chunk_text_terminates_witness :
    2 < 3 ∧ (['a','b','c','d'] : List Char).length < 10 ∧
    chunk_text_fuel 10 ['a','b','c','d'] 3 2 0 = some (chunk_text ['a','b','c','d'] 3 2) :=
  ⟨by decide, by decide, chunk_text_terminates ['a','b','c','d'] 3 2 (by decide) 10 (by decide)⟩

/-- Claim C4: evaluation at the failing input.  When the endpoint responds
successfully but with an embedding of length zero, `get_embeddings` returns
the 768-dimensional zero vector instead of propagating an error: the
`ValueError` it raises for the empty embedding is caught by the same
function's `except Exception` handler, which returns the fallback vector. -/
theorem empty_embedding_returns_fallback :
    get_embeddings ['h','i'] EMBEDDING_MODEL (EndpointBehavior.ok []) =
      Except.ok (List.replicate 768 (0 : ℚ)) := rfl

/-- Claim C7: retrieval against a store whose count is 0 returns the empty
list immediately, with zero invocations of the embedding client. -/
theorem retrieve_empty_store_short_circuit (store : Store)
    (queryFn : Vec → Nat → Except String (List (List Char)))
    (b : EndpointBehavior) (query : List Char) (top_k : Nat)
    (h : store.count = 0) :
    retrieve_relevant_chunks store queryFn b query top_k = ([], 0) := by
  simp [retrieve_relevant_chunks, h]

theorem retrieve_empty_store_short_circuit_witness :
    (Store.mk []).count = 0
    ∧ retrieve_relevant_chunks (Store.mk []) (fun _ _ => Except.ok [])
        EndpointBehavior.connectFail ['q'] 5 = ([], 0) :=
  ⟨rfl, retrieve_empty_store_short_circuit (Store.mk []) (fun _ _ => Except.ok [])
      EndpointBehavior.connectFail ['q'] 5 rfl⟩

/-- Claim C8: for the feed of lines parsing to `{response: "a"}`,
`{response: "b", done: false}` and `{done: true}`, the streamer yields
exactly the events `chunk "a"`, `chunk "b"`, `done`, in that order; and the
result is unchanged by any lines after the `done` line — the loop breaks
without reading them. -/
theorem stream_event_sequence :
    stream_ollama_response (GenEndpoint.ok
        [RawLine.obj (some "a") false, RawLine.obj (some "b") false,
         RawLine.obj none true])
      = [StreamEvent.chunk "a", StreamEvent.chunk "b", StreamEvent.done]
    ∧ ∀ extra : List RawLine,
        stream_ollama_response (GenEndpoint.ok
            ([RawLine.obj (some "a") false, RawLine.obj (some "b") false,
              RawLine.obj none true] ++ extra))
          = [StreamEvent.chunk "a", StreamEvent.chunk "b", StreamEvent.done] := by
  exact ⟨rfl, fun extra => rfl⟩

/-- Claim C9: with an empty context-chunk list the composer's output is
byte-identical whether the rag flag is set or not — both calls take the
direct-mode branch of `build_prompt`. -/
theorem prompt_mode_fallback (query : String) (action : Option String) :
    build_prompt query [] action true = build_prompt query [] action false := rfl

/-- Claim C10: whenever `get_embeddings` degrades instead of raising — on any
non-connect, non-status exception, or on a successful response whose
embedding is empty — it returns exactly 768 entries of 0, for every text and
every model argument; and every other successful return is the endpoint's
own vector, so the fallback dimensionality is the fixed constant 768,
independent of the requested model. -/
theorem zero_vector_fallback_dim (text : List Char) (model : String) :
    (∀ msg, get_embeddings text model (EndpointBehavior.otherFail msg) =
        Except.ok (List.replicate 768 (0 : ℚ)))
    ∧ get_embeddings text model (EndpointBehavior.ok []) =
        Except.ok (List.replicate 768 (0 : ℚ))
    ∧ ∀ b v, get_embeddings text model b = Except.ok v →
        v = List.replicate 768 (0 : ℚ) ∨ b = EndpointBehavior.ok v := by
  refine ⟨fun msg => rfl, rfl, ?_⟩
  intro b v hv
  cases b with
  | ok emb =>
    by_cases hemp : emb.isEmpty
    · left
      simp only [get_embeddings, if_pos hemp, Except.ok.injEq] at hv
      exact hv.symm
    · right
      simp only [get_embeddings, if_neg hemp, Except.ok.injEq] at hv
      rw [hv]
  | connectFail => simp [get_embeddings] at hv
  | statusFail code body => simp [get_embeddings] at hv
  | otherFail msg =>
    left
    simp only [get_embeddings, Except.ok.injEq] at hv
    exact hv.symm

theorem zero_vector_fallback_dim_witness :
    get_embeddings ['q'] "llama3" (EndpointBehavior.otherFail "boom") =
      Except.ok (List.replicate 768 (0 : ℚ)) :=
  (zero_vector_fallback_dim ['q'] "llama3").1 "boom"

lemma build_records_otherFail (file_id filename msg : String) :
    ∀ (chunks : List (List Char)) (i : Nat), ∃ recs,
      build_records file_id filename (fun _ => EndpointBehavior.otherFail msg) i chunks =
        Except.ok recs := by
  intro chunks
  induction chunks with
  | nil => exact fun i => ⟨[], rfl⟩
  | cons c rest ih =>
    intro i
    obtain ⟨recs, hr⟩ := ih (i + 1)
    refine ⟨StoreRecord.mk (file_id ++ "_" ++ toString i)
      (List.replicate 768 (0 : ℚ)) filename i c :: recs, ?_⟩
    simp only [build_records, get_embeddings, hr]

lemma build_records_error_of_mem (file_id filename : String)
    (endpoint : Nat → EndpointBehavior) :
    ∀ (chunks : List (List Char)) (i0 : Nat),
      (∃ j, j < chunks.length ∧ ∃ e,
        get_embeddings (chunks.getD j []) EMBEDDING_MODEL (endpoint (i0 + j)) =
          Except.error e) →
      ∃ e, build_records file_id filename endpoint i0 chunks = Except.error e := by
  intro chunks
  induction chunks with
  | nil =>
    rintro i0 ⟨j, hj, -⟩
    simp at hj
  | cons c rest ih =>
    rintro i0 ⟨j, hj, e, he⟩
    cases hemb : get_embeddings c EMBEDDING_MODEL (endpoint i0) with
    | error e2 =>
      refine ⟨e2, ?_⟩
      simp only [build_records, hemb]
    | ok emb =>
      cases j with
      | zero =>
        rw [Nat.add_zero] at he
        simp only [List.getD_cons_zero] at he
        rw [hemb] at he
        exact absurd he (by simp)
      | succ j' =>
        obtain ⟨e3, h3⟩ := ih (i0 + 1)
          ⟨j', by simpa using hj, e, by
            rw [show i0 + 1 + j' = i0 + (j' + 1) by omega]
            simpa using he⟩
        refine ⟨e3, ?_⟩
        simp only [build_records, hemb, h3]

/-- Claim C1 counterexample: a simulated embedding-endpoint failure of the
generic exception class (`otherFail`) during ingestion does not fail loudly
— `ingest_document` raises nothing and submits a record built from the
zero-vector fallback, so the document is not rejected. -/
theorem embed_failure_asymmetry_counterexample :
    (ingest_document "doc" ['h','i'] "f.txt"
        (fun _ => EndpointBehavior.otherFail "boom")).error = none
    ∧ 0 < (ingest_document "doc" ['h','i'] "f.txt"
        (fun _ => EndpointBehavior.otherFail "boom")).submitted.length := by
  decide

/-- Claim C1 (amended): the loud/silent split is by failure class, not by
call path.  Connection and HTTP-status failures propagate out of
`get_embeddings` on both paths — during ingestion they abort the document
with zero records submitted, while during query embedding the retriever
catches them and returns the empty list (not a zero vector).  Every other
failure is absorbed inside `get_embeddings` itself and yields the fixed
768-dimensional zero vector on both paths, so ingestion, too, proceeds
silently on such failures. -/
theorem embed_failure_paths (t text : List Char) (model file_id filename : String)
    (code : Nat) (body msg : String) (store : Store)
    (queryFn : Vec → Nat → Except String (List (List Char)))
    (q : List Char) (top_k : Nat)
    (hstore : store.count ≠ 0) (htext : text ≠ []) :
    get_embeddings t model EndpointBehavior.connectFail =
        Except.error EmbedError.connectError
    ∧ get_embeddings t model (EndpointBehavior.statusFail code body) =
        Except.error (EmbedError.httpStatusError code body)
    ∧ (ingest_document file_id text filename (fun _ => EndpointBehavior.connectFail)).error =
        some EmbedError.connectError
    ∧ (ingest_document file_id text filename (fun _ => EndpointBehavior.connectFail)).submitted = []
    ∧ retrieve_relevant_chunks store queryFn EndpointBehavior.connectFail q top_k = ([], 1)
    ∧ get_embeddings t model (EndpointBehavior.otherFail msg) =
        Except.ok (List.replicate 768 (0 : ℚ))
    ∧ (ingest_document file_id text filename (fun _ => EndpointBehavior.otherFail msg)).error =
        none := by
  have hov : CHUNK_OVERLAP < CHUNK_SIZE := by decide
  have hne := chunk_text_ne_nil text CHUNK_SIZE CHUNK_OVERLAP hov htext
  obtain ⟨c, rest, hcr⟩ : ∃ c rest, chunk_text text CHUNK_SIZE CHUNK_OVERLAP = c :: rest := by
    cases hch : chunk_text text CHUNK_SIZE CHUNK_OVERLAP with
    | nil => exact absurd hch hne
    | cons c rest => exact ⟨c, rest, rfl⟩
  refine ⟨rfl, rfl, ?_, ?_, ?_, rfl, ?_⟩
  · simp only [ingest_document, hcr, List.isEmpty_cons, build_records, get_embeddings]
    rfl
  · simp only [ingest_document, hcr, List.isEmpty_cons, build_records, get_embeddings]
    rfl
  · simp [retrieve_relevant_chunks, hstore, get_embeddings]
  · obtain ⟨recs, hr⟩ :=
      build_records_otherFail file_id filename msg (chunk_text text CHUNK_SIZE CHUNK_OVERLAP) 0
    by_cases hemp : (chunk_text text CHUNK_SIZE CHUNK_OVERLAP).isEmpty
    · simp [ingest_document, hemp]
    · simp [ingest_document, hemp, hr]

theorem embed_failure_paths_witness :
    (Store.mk [StoreRecord.mk "id0" [] "f" 0 []]).count ≠ 0
    ∧ (['a'] : List Char) ≠ []
    ∧ (get_embeddings ['t'] "m" EndpointBehavior.connectFail =
          Except.error EmbedError.connectError
       ∧ get_embeddings ['t'] "m" (EndpointBehavior.statusFail 500 "body") =
          Except.error (EmbedError.httpStatusError 500 "body")
       ∧ (ingest_document "d" ['a'] "f.txt" (fun _ => EndpointBehavior.connectFail)).error =
          some EmbedError.connectError
       ∧ (ingest_document "d" ['a'] "f.txt" (fun _ => EndpointBehavior.connectFail)).submitted = []
       ∧ retrieve_relevant_chunks (Store.mk [StoreRecord.mk "id0" [] "f" 0 []])
          (fun _ _ => Except.ok []) EndpointBehavior.connectFail ['q'] 5 = ([], 1)
       ∧ get_embeddings ['t'] "m" (EndpointBehavior.otherFail "boom") =
          Except.ok (List.replicate 768 (0 : ℚ))
       ∧ (ingest_document "d" ['a'] "f.txt" (fun _ => EndpointBehavior.otherFail "boom")).error =
          none) :=
  ⟨by decide, by decide,
   embed_failure_paths ['t'] ['a'] "m" "d" "f.txt" 500 "body" "boom"
     (Store.mk [StoreRecord.mk "id0" [] "f" 0 []]) (fun _ _ => Except.ok []) ['q'] 5
     (by decide) (by decide)⟩

/-- Claim C5: if acquiring the embedding for any chunk of the document
fails (raises), the ingestion submits zero records to the store and the
error escapes to the caller — all-or-nothing. -/
theorem ingest_all_or_nothing (file_id filename : String) (text : List Char)
    (endpoint : Nat → EndpointBehavior)
    (h : ∃ i, i < (chunk_text text CHUNK_SIZE CHUNK_OVERLAP).length ∧
        ∃ e, get_embeddings ((chunk_text text CHUNK_SIZE CHUNK_OVERLAP).getD i [])
              EMBEDDING_MODEL (endpoint i) = Except.error e) :
    (ingest_document file_id text filename endpoint).submitted = []
    ∧ (ingest_document file_id text filename endpoint).error.isSome = true := by
  obtain ⟨i, hi, e, he⟩ := h
  have hne : chunk_text text CHUNK_SIZE CHUNK_OVERLAP ≠ [] := by
    intro hnil
    rw [hnil] at hi
    simp at hi
  obtain ⟨e2, hb⟩ := build_records_error_of_mem file_id filename endpoint
    (chunk_text text CHUNK_SIZE CHUNK_OVERLAP) 0
    ⟨i, hi, e, by simpa using he⟩
  have hemp : (chunk_text text CHUNK_SIZE CHUNK_OVERLAP).isEmpty = false := by
    cases hch : chunk_text text CHUNK_SIZE CHUNK_OVERLAP with
    | nil => exact absurd hch hne
    | cons c rest => rfl
  simp [ingest_document, hemp, hb]

theorem ingest_all_or_nothing_witness :
    (∃ i, i < (chunk_text ['a'] CHUNK_SIZE CHUNK_OVERLAP).length ∧
      ∃ e, get_embeddings ((chunk_text ['a'] CHUNK_SIZE CHUNK_OVERLAP).getD i [])
            EMBEDDING_MODEL ((fun _ => EndpointBehavior.connectFail) i) = Except.error e)
    ∧ ((ingest_document "d" ['a'] "f" (fun _ => EndpointBehavior.connectFail)).submitted = []
       ∧ (ingest_document "d" ['a'] "f" (fun _ => EndpointBehavior.connectFail)).error.isSome = true) :=
  ⟨⟨0, by decide, EmbedError.connectError, rfl⟩,
   ingest_all_or_nothing "d" "f" ['a'] (fun _ => EndpointBehavior.connectFail)
     ⟨0, by decide, EmbedError.connectError, rfl⟩⟩
